import Mathlib

/-!
Shallow embedding of the similarity core of the `mlb-player-comparisons`
repository (files `src/similarity/distance.py`, `src/similarity/normalizer.py`,
`src/similarity/engine.py`, `src/similarity/pitch_engine.py`,
`src/metrics/pitcher_definitions.py`, `src/metrics/pitch_model_definitions.py`),
together with theorems checking the specification's claims about it.

Modelling conventions:

* Python floats are modelled as exact rationals `ℚ`; the single irrational
  operation (`np.sqrt` in `calculate_distance`, `pandas.Series.std` in the
  normalizer) is modelled with `Real.sqrt` into `ℝ`.
* A pandas `Series` row is modelled as an association list from column name to
  `Option ℚ`: a key that is present with value `none` models a stored `NaN`;
  a key that is absent models a column the row does not carry.  `Row.get`
  returns `some v` exactly when the cell exists and is non-missing, which is
  the condition `pd.notna(row.get(col))` used throughout the source.
* A pandas `DataFrame` is a `Frame`: its column list plus its rows.  Column
  membership tests (`col in df.columns`, `col in series.index`) are tests on
  `Frame.cols`.
* `float("inf")` returned by `DistanceCalculator.calculate_distance` is the
  top element of `EReal`; the finite branch is `Real.sqrt` of the accumulated
  rational sum.  Inside the engine pipeline the candidate ordering of
  `nsmallest` is taken on the accumulated squared sums (`calcDistSq`), which
  induces exactly the ordering of the square-rooted distances because
  `Real.sqrt` is monotone; the filter `distance < inf` is the `Option.isSome`
  test on `calcDistSq`.
-/

namespace MLBComp

/-- One tabular row (a pandas Series): association list column ↦ optional value.
A stored `none` models `NaN`; an absent key models a missing column. -/
structure Row where
  cells : List (String × Option ℚ)
deriving DecidableEq, Repr

/-- Cell access followed by the `pd.isna` collapse: `some v` iff the column is
present on the row and its value is non-missing.  This is what
`pd.isna(series.get(col))` distinguishes in the source: both an absent key
(`None`) and a stored `NaN` are "missing". -/
def Row.get (r : Row) (c : String) : Option ℚ :=
  ((List.find? (fun p => p.1 == c) r.cells).map (fun p => p.2)).join

/-- A pandas DataFrame: the declared column list plus the rows. -/
structure Frame where
  cols : List String
  rows : List Row
deriving DecidableEq, Repr

/-- The weight dictionary handed to `DistanceCalculator.__init__`. -/
structure Weights where
  entries : List (String × ℚ)
deriving DecidableEq, Repr

/-- Python `self.weights.get(base_col, 1.0)`: dictionary lookup with
default `1.0` for names absent from the mapping. -/
def Weights.get (w : Weights) (name : String) : ℚ :=
  ((List.find? (fun p => p.1 == name) w.entries).map (fun p => p.2)).getD 1

/-- Python `z_col.replace("_z", "")` from `DistanceCalculator.calculate_distance`
(line 45 of `distance.py`): every occurrence of `"_z"` is removed. -/
def baseCol (zcol : String) : String := zcol.replace "_z" ""

/-- The accumulation loop of `DistanceCalculator.calculate_distance`
(`distance.py` lines 41-56): running pair `(total_distance, total_weight)`,
skipping a dimension when either side's value is missing, otherwise adding
`weight * (target - candidate)**2` and `weight`. -/
def distAccum (w : Weights) (target candidate : Row) (zcols : List String) :
    ℚ × ℚ :=
  zcols.foldl
    (fun acc zcol =>
      let weight := w.get (baseCol zcol)
      match target.get zcol, candidate.get zcol with
      | some tv, some cv => (acc.1 + weight * (tv - cv) ^ 2, acc.2 + weight)
      | _, _ => acc)
    (0, 0)

/-- The squared-distance core of `calculate_distance` (`distance.py` lines
58-61): `none` models the `float("inf")` branch taken when `total_weight == 0`,
`some s` carries the accumulated sum whose square root the source returns. -/
def calcDistSq (w : Weights) (target candidate : Row) (zcols : List String) :
    Option ℚ :=
  let acc := distAccum w target candidate zcols
  if acc.2 = 0 then none else some acc.1

/-- `DistanceCalculator.calculate_distance` itself: `float("inf")` is `⊤ : EReal`,
the finite branch is `np.sqrt(total_distance)`. -/
noncomputable def calculate_distance (w : Weights) (target candidate : Row)
    (zcols : List String) : EReal :=
  match calcDistSq w target candidate zcols with
  | none => (⊤ : EReal)
  | some s => ((Real.sqrt (s : ℝ) : ℝ) : EReal)

/-- The dimensions of `zcols` on which both rows have a non-missing value:
exactly the loop iterations of `calculate_distance` that are not `continue`d. -/
def includedDims (target candidate : Row) (zcols : List String) : List String :=
  zcols.filter (fun z => (target.get z).isSome && (candidate.get z).isSome)

/-- The contribution `weight * (target - candidate)**2` of one included
dimension (the `getD 0` defaults are only ever read on included dimensions,
where both values are present). -/
def dimTerm (w : Weights) (target candidate : Row) (z : String) : ℚ :=
  w.get (baseCol z) * (((target.get z).getD 0) - ((candidate.get z).getD 0)) ^ 2

/-! ### Season-level similarity engine (`engine.py`) -/

/-- The fitted state of a `SimilarityEngine` that `find_similar` and
`get_player_season` read: the prepared dataset (raw and z-score columns
together, exactly what `_prepare_dataset` leaves in `self.dataset`), the
configuration fields the query path consults, and the `z_columns` list. -/
structure Engine where
  cols : List String
  rows : List Row
  weights : Weights
  zcols : List String
  sanityMetric : String
  sanityTol : ℚ
  isBatter : Bool

/-- The boolean mask `(dataset["mlbam_id"] == player_id) & (dataset["season"]
== season)` of `find_similar` / `get_player_season`; a missing value compares
unequal, as pandas `==` on `NaN` yields `False`. -/
def targetMask (pid season : ℚ) (r : Row) : Bool :=
  decide (r.get "mlbam_id" = some pid) && decide (r.get "season" = some season)

/-- The outcome-tolerance filter of `find_similar` (`engine.py` lines 131-141).
The source guards on `sanity_metric in candidates.columns and sanity_metric in
target.index`; both index sets are the dataset's columns, so the guard is one
membership test on `Engine.cols`.  A candidate whose sanity value is missing
fails both pandas comparisons (`NaN >= x` and `NaN <= x` are `False`) and is
dropped. -/
def sanityFilterCands (e : Engine) (target : Row) (cands : List Row) :
    List Row :=
  if e.cols.contains e.sanityMetric then
    match target.get e.sanityMetric with
    | some ts =>
        cands.filter (fun r =>
          match r.get e.sanityMetric with
          | some v => decide (ts - e.sanityTol ≤ v) && decide (v ≤ ts + e.sanityTol)
          | none => false)
    | none => cands
  else cands

/-- Constant `MIN_STARTER_COMP_IP = 80.0` from `pitcher_definitions.py`. -/
def MIN_STARTER_COMP_IP : ℚ := 80

/-- Candidate role classification of `_filter_by_pitcher_role` (`engine.py`
lines 291-293): `GS` and `G` are `fillna(0)`-ed, a zero game count is replaced
by `NaN` so the ratio comparison is `False`, otherwise the candidate is a
starter when `GS / G >= 0.5` (constant `STARTER_GS_RATIO = 0.5` from
`pitcher_definitions.py`). -/
def candIsStarter (r : Row) : Bool :=
  let g := (r.get "G").getD 0
  let gs := (r.get "GS").getD 0
  if g = 0 then false else decide (gs / g ≥ (1 : ℚ) / 2)

/-- The target's games count as `_filter_by_pitcher_role` reads it
(`engine.py` line 277): `target.get("G") if "G" in target.index else None`,
where the series' index is the dataset's column list. -/
def targetGames (e : Engine) (target : Row) : Option ℚ :=
  if e.cols.contains "G" then target.get "G" else none

/-- The target's games-started count as `_filter_by_pitcher_role` reads it
(`engine.py` line 278). -/
def targetGamesStarted (e : Engine) (target : Row) : Option ℚ :=
  if e.cols.contains "GS" then target.get "GS" else none

/-- `SimilarityEngine._filter_by_pitcher_role` (`engine.py` lines 262-303).
The early returns: missing or zero target games (`None`, `NaN` or `0`),
missing target games-started, or missing candidate `G`/`GS` columns each
skip the filter.  Otherwise a starter target (`GS/G >= 0.5`) keeps starter
candidates with at least `MIN_STARTER_COMP_IP` innings, and a reliever
target keeps non-starters. -/
def filter_by_pitcher_role (e : Engine) (target : Row) (cands : List Row) :
    List Row :=
  if targetGames e target = none ∨ targetGames e target = some 0 then cands
  else if targetGamesStarted e target = none then cands
  else if ¬ (e.cols.contains "G" ∧ e.cols.contains "GS") then cands
  else if (targetGamesStarted e target).getD 0 / (targetGames e target).getD 0
      ≥ (1 : ℚ) / 2 then
    cands.filter (fun r =>
      candIsStarter r && decide ((r.get "IP").getD 0 ≥ MIN_STARTER_COMP_IP))
  else
    cands.filter (fun r => ! candIsStarter r)

/-- Number of non-missing values a candidate has among a list of z-columns
(the row-wise `notna().sum(axis=1)` of `_filter_candidates_by_metrics`). -/
def coverageCount (r : Row) (zlist : List String) : ℕ :=
  zlist.countP (fun z => (r.get z).isSome)

/-- The group lists of `_filter_candidates_by_metrics`: the fixed metric names
suffixed `_z` and restricted to the engine's fitted z-columns. -/
def groupZ (zcols : List String) (ms : List String) : List String :=
  (ms.map (fun m => m ++ "_z")).filter (fun z => zcols.contains z)

/-- `SimilarityEngine._filter_candidates_by_metrics` (`engine.py` lines
217-260): batters need at least 2 non-missing batted-ball and 2 plate-
discipline z-metrics, pitchers at least 2 stuff and 2 control z-metrics.
(When a group list is empty the pandas comparison `0 >= 2` rejects every
candidate, which coincides with the count over an empty list.) -/
def filter_candidates_by_metrics (e : Engine) (cands : List Row) : List Row :=
  if e.isBatter then
    let bbz := groupZ e.zcols ["exit_velocity", "barrel_pct", "hard_hit_pct", "launch_angle"]
    let pdz := groupZ e.zcols ["chase_rate", "whiff_pct", "k_pct", "bb_pct"]
    cands.filter (fun r =>
      decide (coverageCount r bbz ≥ 2) && decide (coverageCount r pdz ≥ 2))
  else
    let stuffz := groupZ e.zcols ["k_pct", "whiff_pct", "chase_pct", "stuff_plus"]
    let controlz := groupZ e.zcols ["bb_pct", "xfip", "xera", "zone_pct"]
    cands.filter (fun r =>
      decide (coverageCount r stuffz ≥ 2) && decide (coverageCount r controlz ≥ 2))

/-- The tail of `find_similar` after the outcome-tolerance filter
(`engine.py` lines 143-215): early exit on an empty pool, the pitcher role
filter, the metric-coverage filter, the distance computation with the
`distance < inf` filter (the `isSome` test on `calcDistSq`), and
`nsmallest(top_n, "distance")` — a stable ascending sort on the distances
followed by `take`.  The sort key is the squared distance, which orders
candidates exactly as the square-rooted distances do. -/
def rankStage (e : Engine) (target : Row) (cands2 : List Row) (topn : ℕ) :
    List Row :=
  if cands2 = [] then []
  else
    let cands3 :=
      if e.isBatter then cands2 else filter_by_pitcher_role e target cands2
    if cands3 = [] then []
    else
      let cands4 := filter_candidates_by_metrics e cands3
      if cands4 = [] then []
      else
        let withDist := cands4.filterMap
          (fun r => (calcDistSq e.weights target r e.zcols).map (fun d => (r, d)))
        let sorted := withDist.mergeSort (fun a b => decide (a.2 ≤ b.2))
        (sorted.take topn).map (fun p => p.1)

/-- `SimilarityEngine.find_similar` (`engine.py` lines 96-215), returning the
`top_n` ranked candidate rows (the per-row result-dictionary enrichment of
step 8 is one-to-one with these rows and is modelled separately:
`calculate_percentile` below).  Locating the target, removing its rows (and,
with `exclude_same_player`, all rows of the same player id — a missing
`mlbam_id` compares unequal under pandas `!=` and is kept), then the
outcome-tolerance filter and the ranking tail `rankStage`. -/
def find_similar (e : Engine) (pid season : ℚ) (topn : ℕ)
    (excludeSamePlayer : Bool) : List Row :=
  match List.find? (targetMask pid season) e.rows with
  | none => []
  | some target =>
    let cands0 := e.rows.filter (fun r => ! targetMask pid season r)
    let cands1 :=
      if excludeSamePlayer then
        cands0.filter (fun r => ! decide (r.get "mlbam_id" = some pid))
      else cands0
    rankStage e target (sanityFilterCands e target cands1) topn

/-- `SimilarityEngine.get_player_season` (`engine.py` lines 383-426), returning
the located row (`None` when absent); the enrichment of the found row is
one-to-one and omitted as in `find_similar`. -/
def get_player_season (e : Engine) (pid season : ℚ) : Option Row :=
  List.find? (targetMask pid season) e.rows

/-! ### Construction-time checks (`engine.py` / `pitch_engine.py`) -/

/-- The primary metrics actually present in the dataset's columns
(`engine.py` lines 64-66). -/
def availablePrimaryMetrics (cols primary : List String) : List String :=
  primary.filter (fun m => cols.contains m)

/-- The availability check of `SimilarityEngine._prepare_dataset` (`engine.py`
lines 62-72), run unconditionally from `__init__`: raising `ValueError` when no
configured primary metric is a dataset column, otherwise proceeding with the
available subset. -/
def prepare_dataset_check (cols primary : List String) :
    Except String (List String) :=
  if availablePrimaryMetrics cols primary = []
  then Except.error "Dataset missing all primary metrics"
  else Except.ok (availablePrimaryMetrics cols primary)

/-- `PITCH_COMPARISON_METRICS` from `pitch_model_definitions.py`. -/
def PITCH_COMPARISON_METRICS : List String :=
  ["avg_velo", "avg_ivb", "avg_ihb", "avg_spin",
   "stuff_plus", "whiff_pct", "chase_pct", "zone_pct"]

/-- The pitch comparison metrics present in the dataset's columns
(`pitch_engine.py` lines 29-31). -/
def pitchAvailableMetrics (cols : List String) : List String :=
  PITCH_COMPARISON_METRICS.filter (fun m => cols.contains m)

/-- The availability check of `PitchSimilarityEngine.__init__`
(`pitch_engine.py` lines 27-34), continued: raising `ValueError` when the
available list is empty. -/
def pitch_engine_init_check (cols : List String) :
    Except String (List String) :=
  if pitchAvailableMetrics cols = []
  then Except.error "Dataset missing all pitch comparison metrics"
  else Except.ok (pitchAvailableMetrics cols)

/-! ### Percentile computation (`engine.py` lines 305-329) -/

/-- The season-restricted non-missing values of a metric:
`season_data = dataset[dataset["season"] == season]` followed by
`season_data[metric].dropna()`. -/
def seasonColData (ds : Frame) (metric : String) (season : ℚ) : List ℚ :=
  (ds.rows.filter (fun r => decide (r.get "season" = some season))).filterMap
    (fun r => r.get metric)

/-- `SimilarityEngine._calculate_percentile`: `50` for a missing value, an
absent metric column, or an empty season sample; otherwise the share of
same-season rows strictly below the value times 100, flipped to `100 - pct`
when lower is better, then clamped by `max(1, min(99, pct))`. -/
def calculate_percentile (ds : Frame) (metric : String) (value : Option ℚ)
    (season : ℚ) (higherIsBetter : Bool) : ℚ :=
  match value with
  | none => 50
  | some v =>
    if ds.cols.contains metric then
      let colData := seasonColData ds metric season
      if colData.length = 0 then 50
      else
        let pct := ((colData.countP (fun x => decide (x < v)) : ℚ)
            / (colData.length : ℚ)) * 100
        let pct2 := if higherIsBetter then pct else 100 - pct
        max 1 (min 99 pct2)
    else 50

/-! ### Normalizer (`normalizer.py`)

The normalizer's two dictionaries `_means` and `_stds` are association lists
with in-place update (`upsert`), matching Python dict assignment inside the
`fit` loop.  Pandas `Series.mean()` of an empty selection is `NaN` (modelled
`none`); `Series.std()` uses `ddof=1` and is `NaN` for fewer than two values.
The zero check `self._stds[col] == 0` is false for `NaN`, so only an actual
zero standard deviation is floored to `1.0`. -/

/-- Dictionary write `d[k] = v`: replace the binding if the key exists,
otherwise append it. -/
def upsert (l : List (String × α)) (k : String) (v : α) : List (String × α) :=
  match l with
  | [] => [(k, v)]
  | (k0, v0) :: rest =>
    if k0 == k then (k, v) :: rest else (k0, v0) :: upsert rest k v

/-- Dictionary read `d.get(k)`. -/
def alookup (l : List (String × α)) (k : String) : Option α :=
  (List.find? (fun p => p.1 == k) l).map (fun p => p.2)

/-- The fitted state of a `MetricNormalizer`: `_means` and `_stds`.  Mean
values are rational (`none` = stored `NaN`); standard deviations live in `ℝ`
because pandas `std` is a square root. -/
structure NormState where
  means : List (String × Option ℚ)
  stds : List (String × Option ℝ)

/-- `df[col].dropna()`: the non-missing values of a column across the rows. -/
def colValues (df : Frame) (col : String) : List ℚ :=
  df.rows.filterMap (fun r => r.get col)

/-- `col_data.mean()`: `NaN` on an empty selection. -/
def meanOpt (data : List ℚ) : Option ℚ :=
  if data.length = 0 then none else some (data.sum / (data.length : ℚ))

/-- The sample variance underlying `col_data.std()` (pandas default `ddof=1`):
`NaN` for fewer than two values. -/
def sampleVarOpt (data : List ℚ) : Option ℚ :=
  if data.length ≤ 1 then none
  else
    some (((data.map (fun x => (x - data.sum / (data.length : ℚ)) ^ 2)).sum)
      / ((data.length : ℚ) - 1))

/-- `col_data.std()`: the square root of the sample variance. -/
noncomputable def stdOpt (data : List ℚ) : Option ℝ :=
  (sampleVarOpt data).map (fun v : ℚ => Real.sqrt (v : ℝ))

/-- The stored standard deviation after the flooring step
`if self._stds[col] == 0: self._stds[col] = 1.0` (`normalizer.py` lines
32-33); a `NaN` standard deviation is not equal to zero and stays. -/
noncomputable def flooredStd (data : List ℚ) : Option ℝ :=
  (stdOpt data).map (fun s => if s = 0 then 1 else s)

/-- One iteration of the `fit` loop (`normalizer.py` lines 27-33): if the
requested column is present in the DataFrame, store the mean and the
(floored) standard deviation of its non-missing values, else do nothing. -/
noncomputable def fitStep (df : Frame) (st : NormState) (col : String) :
    NormState :=
  if df.cols.contains col then
    { means := upsert st.means col (meanOpt (colValues df col)),
      stds := upsert st.stds col (flooredStd (colValues df col)) }
  else st

/-- `MetricNormalizer.fit` (`normalizer.py` lines 16-36): the loop over the
requested columns, starting from the empty dictionaries of `__init__`;
a column absent from the DataFrame is skipped. -/
noncomputable def fit (df : Frame) (columns : List String) : NormState :=
  columns.foldl (fitStep df) ⟨[], []⟩

/-- `MetricNormalizer.fitted_columns` (`normalizer.py` lines 83-86):
`list(self._means.keys())`. -/
def fitted_columns (st : NormState) : List String :=
  st.means.map (fun p => p.1)

/-- `cols_to_transform = columns or list(self._means.keys())` of `transform`:
Python `or` falls back on `None` and on an empty list alike. -/
def transformCols (st : NormState) (columns : Option (List String)) :
    List String :=
  match columns with
  | none => fitted_columns st
  | some cs => if cs = [] then fitted_columns st else cs

/-- The z-score columns `transform` appends (`normalizer.py` lines 57-60): one
per requested column that is a DataFrame column and has fitted statistics. -/
def transformZColumnNames (st : NormState) (dfcols : List String)
    (columns : Option (List String)) : List String :=
  ((transformCols st columns).filter
      (fun c => dfcols.contains c && (alookup st.means c).isSome)).map
    (fun c => c ++ "_z")

/-- One cell of a produced z-score column:
`(df[col] - self._means[col]) / self._stds[col]` with pandas `NaN`
propagation — missing raw value, `NaN` mean or `NaN` standard deviation all
yield a missing z-score. -/
noncomputable def zScoreValue (st : NormState) (r : Row) (col : String) :
    Option ℝ :=
  match r.get col, (alookup st.means col).join, (alookup st.stds col).join with
  | some x, some m, some s => some (((x - m : ℚ) : ℝ) / s)
  | _, _, _ => none

/-! ### Concrete inputs used by witnesses and counterexamples -/

/-- Demo weight table: metric `a` weighted 2, everything else defaulted. -/
def wDemo : Weights := ⟨[("a", 2)]⟩

/-- Demo target z-row: both dimensions present. -/
def rowTDemo : Row := ⟨[("a_z", some 3), ("b_z", some 1)]⟩

/-- Demo candidate z-row: dimension `b_z` missing. -/
def rowCDemo : Row := ⟨[("a_z", some 1), ("b_z", none)]⟩

/-- Demo candidate z-row sharing no dimension with `rowTDemo`. -/
def rowNoneDemo : Row := ⟨[("a_z", none), ("b_z", none)]⟩

/-- Two-row season: metric values 1 and 2 in season 2021. -/
def frameTwo : Frame :=
  ⟨["season", "m"],
   [⟨[("season", some 2021), ("m", some 1)]⟩,
    ⟨[("season", some 2021), ("m", some 2)]⟩]⟩

/-- Three-row season: metric values 1, 2 and 3 in season 2021. -/
def frameThree : Frame :=
  ⟨["season", "m"],
   [⟨[("season", some 2021), ("m", some 1)]⟩,
    ⟨[("season", some 2021), ("m", some 2)]⟩,
    ⟨[("season", some 2021), ("m", some 3)]⟩]⟩

/-- A frame whose only column `m` is present but entirely missing. -/
def frameAllMissing : Frame := ⟨["m"], [⟨[("m", none)]⟩]⟩

/-- A frame whose column `m` has two equal non-missing values, so its sample
standard deviation is zero. -/
def frameConstant : Frame :=
  ⟨["m"], [⟨[("m", some 5)]⟩, ⟨[("m", some 5)]⟩]⟩

/-- Demo batter target row for the engine fixtures. -/
def rowTargetDemo : Row :=
  ⟨[("mlbam_id", some 1), ("season", some 2021), ("xwoba", some 320),
    ("exit_velocity_z", some 0), ("barrel_pct_z", some 0),
    ("chase_rate_z", some 0), ("whiff_pct_z", some 0)]⟩

/-- Demo batter candidate row close to the target on every dimension. -/
def rowCandDemo : Row :=
  ⟨[("mlbam_id", some 2), ("season", some 2021), ("xwoba", some 330),
    ("exit_velocity_z", some 1), ("barrel_pct_z", some 1),
    ("chase_rate_z", some 1), ("whiff_pct_z", some 1)]⟩

/-- Demo fitted batter engine with one target row and one candidate row. -/
def engineDemo : Engine :=
  { cols := ["mlbam_id", "season", "xwoba", "exit_velocity_z", "barrel_pct_z",
             "chase_rate_z", "whiff_pct_z"],
    rows := [rowTargetDemo, rowCandDemo],
    weights := ⟨[]⟩,
    zcols := ["exit_velocity_z", "barrel_pct_z", "chase_rate_z", "whiff_pct_z"],
    sanityMetric := "xwoba",
    sanityTol := 30,
    isBatter := true }

/-- Demo pitcher engine; only its column list matters to the role filter. -/
def enginePitcherDemo : Engine :=
  { cols := ["mlbam_id", "season", "xera", "G", "GS", "IP"],
    rows := [],
    weights := ⟨[]⟩,
    zcols := [],
    sanityMetric := "xera",
    sanityTol := 300,
    isBatter := false }

/-- Pure starter target: 30 games, 30 starts (the spec's role scenario). -/
def rowStarterTarget : Row :=
  ⟨[("mlbam_id", some 1), ("season", some 2021), ("G", some 30),
    ("GS", some 30), ("IP", some 50)]⟩

/-- Reliever candidate: 60 games, 2 starts. -/
def rowRelieverCand : Row :=
  ⟨[("mlbam_id", some 2), ("season", some 2021), ("G", some 60),
    ("GS", some 2), ("IP", some 100)]⟩

/-- Starter candidate with 90 innings: 30 games, 28 starts. -/
def rowStarterCand : Row :=
  ⟨[("mlbam_id", some 3), ("season", some 2021), ("G", some 30),
    ("GS", some 28), ("IP", some 90)]⟩

/-! ### Distance calculator lemmas -/

/-- Closed form of the accumulation loop: starting from any accumulator, the
fold adds the sum of the included dimensions' contributions and the sum of
their weights. -/
lemma distAccum_go (w : Weights) (t c : Row) (zcols : List String)
    (init : ℚ × ℚ) :
    zcols.foldl
      (fun acc zcol =>
        let weight := w.get (baseCol zcol)
        match t.get zcol, c.get zcol with
        | some tv, some cv => (acc.1 + weight * (tv - cv) ^ 2, acc.2 + weight)
        | _, _ => acc)
      init
    = (init.1 + ((includedDims t c zcols).map (dimTerm w t c)).sum,
       init.2 + ((includedDims t c zcols).map (fun z => w.get (baseCol z))).sum) := by
  induction zcols generalizing init with
  | nil => simp [includedDims]
  | cons z rest ih =>
    rcases ht : t.get z with _ | tv <;> rcases hc : c.get z with _ | cv <;>
      simp only [List.foldl_cons, ht, hc, includedDims, List.filter_cons,
        Option.isSome_none, Option.isSome_some, Bool.false_and, Bool.and_false,
        Bool.true_and, Bool.and_true, ite_false, ite_true, reduceIte] <;>
      rw [ih] <;>
      simp [includedDims, dimTerm, ht, hc] <;> ring_nf <;> simp [add_assoc]

/-- The accumulated pair equals (sum of included contributions, sum of
included weights). -/
lemma distAccum_eq (w : Weights) (t c : Row) (zcols : List String) :
    distAccum w t c zcols
    = (((includedDims t c zcols).map (dimTerm w t c)).sum,
       ((includedDims t c zcols).map (fun z => w.get (baseCol z))).sum) := by
  simpa using distAccum_go w t c zcols (0, 0)

/-- Any weight the lookup produces is positive when every stored weight is. -/
lemma Weights.get_pos (w : Weights) (h : ∀ p ∈ w.entries, 0 < p.2)
    (name : String) : 0 < w.get name := by
  unfold Weights.get
  rcases hf : List.find? (fun p => p.1 == name) w.entries with _ | p
  · rw [hf]; simp
  · rw [hf]; simpa using h p (List.mem_of_find?_eq_some hf)

/-- C1: for every pair of z-scored rows and every dimension list,
`DistanceCalculator.calculate_distance` skips each dimension where either
side's value is missing, and for each included dimension accumulates
`weight * (target - candidate)^2` using the configured weight (default `1.0`
for a name absent from the lookup); whenever at least one dimension is
included (the stored weights being positive, as the specification's data
model requires), the returned distance is the square root of the accumulated
weighted sum — the accumulated weight total does not rescale the result. -/
theorem calculate_distance_is_sqrt_of_weighted_sum (w : Weights) (t c : Row)
    (zcols : List String) (hw : ∀ p ∈ w.entries, 0 < p.2)
    (hinc : includedDims t c zcols ≠ []) :
    calculate_distance w t c zcols
      = ((Real.sqrt ((((includedDims t c zcols).map (dimTerm w t c)).sum : ℚ) : ℝ) : ℝ) : EReal)
    ∧ ∀ name, List.find? (fun p => p.1 == name) w.entries = none →
        w.get name = 1 := by
  constructor
  · have hpos : 0 < ((includedDims t c zcols).map (fun z => w.get (baseCol z))).sum := by
      apply List.sum_pos
      · intro a ha
        rcases List.mem_map.mp ha with ⟨z, _, rfl⟩
        exact Weights.get_pos w hw _
      · simpa using hinc
    have hsq : calcDistSq w t c zcols
        = some ((includedDims t c zcols).map (dimTerm w t c)).sum := by
      unfold calcDistSq
      rw [distAccum_eq]
      simp [ne_of_gt hpos]
    unfold calculate_distance
    rw [hsq]
  · intro name hnone
    unfold Weights.get
    rw [hnone]
    simp

/-- Witness for C1 at a concrete input: weight table `{a ↦ 2}`, target
`(a_z, b_z) = (3, 1)`, candidate `(a_z, b_z) = (1, NaN)`; dimension `b_z` is
skipped and the distance is `√(2·(3−1)²) = √8`. -/
theorem calculate_distance_is_sqrt_of_weighted_sum_witness :
    calculate_distance wDemo rowTDemo rowCDemo ["a_z", "b_z"]
      = ((Real.sqrt ((((includedDims rowTDemo rowCDemo ["a_z", "b_z"]).map
          (dimTerm wDemo rowTDemo rowCDemo)).sum : ℚ) : ℝ) : ℝ) : EReal)
    ∧ ∀ name, List.find? (fun p => p.1 == name) wDemo.entries = none →
        wDemo.get name = 1 :=
  calculate_distance_is_sqrt_of_weighted_sum wDemo rowTDemo rowCDemo
    ["a_z", "b_z"] (by decide) (by decide)

/-- C9: the weighted distance is symmetric in its two rows:
`distance(a, b, dims) = distance(b, a, dims)` for all inputs. -/
theorem calculate_distance_symm (w : Weights) (a b : Row)
    (zcols : List String) :
    calculate_distance w a b zcols = calculate_distance w b a zcols := by
  have hdims : includedDims a b zcols = includedDims b a zcols := by
    unfold includedDims
    exact List.filter_congr (fun z _ => by rw [Bool.and_comm])
  have hterm : (includedDims b a zcols).map (dimTerm w a b)
      = (includedDims b a zcols).map (dimTerm w b a) :=
    List.map_congr_left (fun z _ => by unfold dimTerm; ring)
  have hacc : distAccum w a b zcols = distAccum w b a zcols := by
    rw [distAccum_eq, distAccum_eq, hdims, hterm]
  unfold calculate_distance calcDistSq
  rw [hacc]

/-! ### Engine pipeline lemmas -/

/-- Membership in the else-branch list of an early-exit `if`. -/
lemma mem_of_ite_nil {α : Type} {c : Prop} [Decidable c] {l : List α} {a : α}
    (h : a ∈ (if c then ([] : List α) else l)) : a ∈ l := by
  split at h
  · simp at h
  · exact h

/-- The pitcher role filter never invents candidates. -/
lemma mem_of_mem_roleFilter {e : Engine} {t r : Row} {l : List Row}
    (h : r ∈ filter_by_pitcher_role e t l) : r ∈ l := by
  unfold filter_by_pitcher_role at h
  split at h
  · exact h
  · split at h
    · exact h
    · split at h
      · exact h
      · split at h <;> exact List.mem_of_mem_filter h

/-- The metric-coverage filter never invents candidates. -/
lemma mem_of_mem_metricsFilter {e : Engine} {r : Row} {l : List Row}
    (h : r ∈ filter_candidates_by_metrics e l) : r ∈ l := by
  unfold filter_candidates_by_metrics at h
  split at h <;> exact List.mem_of_mem_filter h

/-- The sanity filter never invents candidates. -/
lemma mem_of_mem_sanityFilter {e : Engine} {t r : Row} {l : List Row}
    (h : r ∈ sanityFilterCands e t l) : r ∈ l := by
  unfold sanityFilterCands at h
  split at h
  · split at h
    · exact List.mem_of_mem_filter h
    · exact h
  · exact h

/-- A candidate surviving the sanity filter has a non-missing sanity value
whenever the sanity column exists and the target's value is present. -/
lemma sanityFilter_isSome {e : Engine} {t r : Row} {l : List Row} {ts : ℚ}
    (hc : e.cols.contains e.sanityMetric = true)
    (hts : t.get e.sanityMetric = some ts)
    (h : r ∈ sanityFilterCands e t l) :
    (r.get e.sanityMetric).isSome = true := by
  unfold sanityFilterCands at h
  rw [if_pos hc, hts] at h
  have hp := List.of_mem_filter h
  rcases hrv : r.get e.sanityMetric with _ | v
  · rw [hrv] at hp; simp at hp
  · simp

/-- Every row of the output of `rankStage` belongs to the incoming candidate
pool and has a finite squared distance to the target. -/
lemma rankStage_mem (e : Engine) (t : Row) (cands2 : List Row) (topn : ℕ) :
    ∀ r ∈ rankStage e t cands2 topn,
      r ∈ cands2 ∧ ∃ d, calcDistSq e.weights t r e.zcols = some d := by
  intro r hr
  unfold rankStage at hr
  have hr3 := mem_of_ite_nil (mem_of_ite_nil (mem_of_ite_nil hr))
  rcases List.mem_map.mp hr3 with ⟨p, hp, rfl⟩
  have hp2 := List.mem_mergeSort.mp (List.mem_of_mem_take hp)
  rcases List.mem_filterMap.mp hp2 with ⟨r', hr', hf⟩
  rcases Option.map_eq_some'.mp hf with ⟨d, hd, hpd⟩
  rw [← hpd]
  refine ⟨?_, ⟨d, hd⟩⟩
  have hr4 := mem_of_mem_metricsFilter hr'
  by_cases hb : e.isBatter = true
  · rw [if_pos hb] at hr4; exact hr4
  · rw [if_neg hb] at hr4; exact mem_of_mem_roleFilter hr4

/-- Every row of the ranked output of `find_similar` survived the sanity
filter (against some candidate pool) and has a finite squared distance to the
located target. -/
lemma find_similar_mem_struct (e : Engine) (pid season : ℚ) (topn : ℕ)
    (excl : Bool) (t : Row)
    (ht : List.find? (targetMask pid season) e.rows = some t) :
    ∀ r ∈ find_similar e pid season topn excl,
      (∃ l, r ∈ sanityFilterCands e t l)
      ∧ ∃ d, calcDistSq e.weights t r e.zcols = some d := by
  intro r hr
  unfold find_similar at hr
  rw [ht] at hr
  dsimp only at hr
  have h := rankStage_mem e t _ topn r hr
  exact ⟨⟨_, h.1⟩, h.2⟩

/-- Concrete evaluation of the demo engine's query: the single candidate row
survives every filter and is the ranked output. -/
lemma engineDemo_find_similar_eval :
    find_similar engineDemo 1 2021 5 true = [rowCandDemo] := by
  have h290 : (320 : ℚ) - 30 = 290 := by norm_num
  have h350 : (320 : ℚ) + 30 = 350 := by norm_num
  simp [find_similar, rankStage, engineDemo, rowTargetDemo, rowCandDemo,
    targetMask, Row.get, sanityFilterCands, filter_candidates_by_metrics,
    groupZ, coverageCount, calcDistSq, distAccum, Weights.get, baseCol,
    List.find?, List.mergeSort_singleton, h290, h350,
    show ¬((290 : ℚ) ≤ 330 → (350 : ℚ) < 330) from by norm_num,
    show (290 : ℚ) ≤ 330 from by norm_num,
    show (330 : ℚ) ≤ 350 from by norm_num,
    List.filterMap_cons, List.filterMap_nil,
    show (0 : ℚ) + 1 = 1 from by norm_num,
    show (1 : ℚ) + 1 = 2 from by norm_num,
    show (2 : ℚ) + 1 = 3 from by norm_num,
    show (3 : ℚ) + 1 = 4 from by norm_num,
    show ¬((4 : ℚ) = 0) from by norm_num]

/-- C4: a target/candidate pair sharing zero non-missing dimensions makes the
running weight total zero and `calculate_distance` return the infinite
"incomparable" sentinel, and every candidate whose distance is that sentinel
is absent from the ranked output of `find_similar` (the output keeps only
candidates with a finite distance). -/
theorem incomparable_sentinel_and_excluded_from_ranking :
    (∀ (w : Weights) (t c : Row) (zcols : List String),
        includedDims t c zcols = [] → calculate_distance w t c zcols = ⊤)
    ∧ ∀ (e : Engine) (pid season : ℚ) (topn : ℕ) (excl : Bool) (t : Row),
        List.find? (targetMask pid season) e.rows = some t →
        ∀ r ∈ find_similar e pid season topn excl,
          calculate_distance e.weights t r e.zcols ≠ ⊤ := by
  constructor
  · intro w t c zcols hnone
    unfold calculate_distance calcDistSq
    rw [distAccum_eq, hnone]
    simp
  · intro e pid season topn excl t ht r hr
    rcases (find_similar_mem_struct e pid season topn excl t ht r hr).2
      with ⟨d, hd⟩
    unfold calculate_distance
    rw [hd]
    exact EReal.coe_ne_top _

/-- Witness for C4: the all-missing candidate row gets the sentinel against
`rowTDemo`, while the surviving candidate of the demo engine's ranked output
has a non-sentinel distance. -/
theorem incomparable_sentinel_witness :
    calculate_distance wDemo rowTDemo rowNoneDemo ["a_z", "b_z"] = ⊤
    ∧ calculate_distance engineDemo.weights rowTargetDemo rowCandDemo
        engineDemo.zcols ≠ ⊤ :=
  ⟨incomparable_sentinel_and_excluded_from_ranking.1 wDemo rowTDemo
      rowNoneDemo ["a_z", "b_z"] (by decide),
   incomparable_sentinel_and_excluded_from_ranking.2 engineDemo 1 2021 5 true
      rowTargetDemo (by decide) rowCandDemo
      (by rw [engineDemo_find_similar_eval]; exact List.mem_singleton_self _)⟩

/-- C7: a queried identity/season with no row in the fitted table yields an
empty result list from `find_similar` and `None` from `get_player_season`;
both are total functions, so no error is raised. -/
theorem missing_target_yields_empty_and_none (e : Engine) (pid season : ℚ)
    (topn : ℕ) (excl : Bool)
    (hnone : List.find? (targetMask pid season) e.rows = none) :
    find_similar e pid season topn excl = []
    ∧ get_player_season e pid season = none := by
  constructor
  · unfold find_similar
    rw [hnone]
  · unfold get_player_season
    exact hnone

/-- Witness for C7: querying the demo engine for an absent player-season. -/
theorem missing_target_witness :
    find_similar engineDemo 99 2021 5 true = []
    ∧ get_player_season engineDemo 99 2021 = none :=
  missing_target_yields_empty_and_none engineDemo 99 2021 5 true (by decide)

/-- Boolean starter classification unfolded to its arithmetic content. -/
lemma candIsStarter_iff (r : Row) :
    candIsStarter r = true
      ↔ ((r.get "G").getD 0 ≠ 0
          ∧ (r.get "GS").getD 0 / (r.get "G").getD 0 ≥ (1 : ℚ) / 2) := by
  unfold candIsStarter
  by_cases h : (r.get "G").getD 0 = 0
  · simp [h]
  · simp [h]

/-- C5: the pitcher role filter classifies a side as starter exactly when
games-started over games is at least one half; an undetermined target role
(missing or zero games, missing games-started) skips the filter entirely;
a starter target keeps exactly the starter candidates that also meet the
`MIN_STARTER_COMP_IP` innings floor (the target row's own innings are never
consulted), and a reliever target keeps exactly the non-starters. -/
theorem pitcher_role_filter_spec (e : Engine) (target : Row)
    (cands : List Row) (hG : e.cols.contains "G" = true)
    (hGS : e.cols.contains "GS" = true) :
    (targetGames e target = none ∨ targetGames e target = some 0
        ∨ targetGamesStarted e target = none →
      filter_by_pitcher_role e target cands = cands)
    ∧ (∀ g gs, targetGames e target = some g → g ≠ 0 →
        targetGamesStarted e target = some gs → gs / g ≥ (1 : ℚ) / 2 →
        ∀ r, r ∈ filter_by_pitcher_role e target cands ↔
          r ∈ cands
          ∧ ((r.get "G").getD 0 ≠ 0
              ∧ (r.get "GS").getD 0 / (r.get "G").getD 0 ≥ (1 : ℚ) / 2)
          ∧ (r.get "IP").getD 0 ≥ MIN_STARTER_COMP_IP)
    ∧ (∀ g gs, targetGames e target = some g → g ≠ 0 →
        targetGamesStarted e target = some gs → gs / g < (1 : ℚ) / 2 →
        ∀ r, r ∈ filter_by_pitcher_role e target cands ↔
          r ∈ cands
          ∧ ¬((r.get "G").getD 0 ≠ 0
              ∧ (r.get "GS").getD 0 / (r.get "G").getD 0 ≥ (1 : ℚ) / 2)) := by
  refine ⟨?_, ?_, ?_⟩
  · intro h
    unfold filter_by_pitcher_role
    rcases h with h | h | h
    · rw [if_pos (Or.inl h)]
    · rw [if_pos (Or.inr h)]
    · by_cases h0 : targetGames e target = none ∨ targetGames e target = some 0
      · rw [if_pos h0]
      · rw [if_neg h0, if_pos h]
  · intro g gs hg hg0 hgs hrat r
    unfold filter_by_pitcher_role
    rw [if_neg (by simp [hg, hg0]), if_neg (by simp [hgs]),
      if_neg (not_not.mpr ⟨hG, hGS⟩),
      if_pos (by rw [hg, hgs]; simpa using hrat)]
    rw [List.mem_filter]
    simp only [Bool.and_eq_true, decide_eq_true_eq, candIsStarter_iff]
  · intro g gs hg hg0 hgs hrat r
    unfold filter_by_pitcher_role
    rw [if_neg (by simp [hg, hg0]), if_neg (by simp [hgs]),
      if_neg (not_not.mpr ⟨hG, hGS⟩),
      if_neg (by rw [hg, hgs]; simpa using not_le.mpr hrat)]
    rw [List.mem_filter]
    simp only [Bool.not_eq_true', ← Bool.not_eq_true, candIsStarter_iff]

/-- Witness for C5 at the spec's role scenario: a pure starter target
(30 games, 30 starts), a reliever candidate (60 games, 2 starts) and a
starter candidate with 90 innings; only the starter candidate survives. -/
theorem pitcher_role_filter_spec_witness :
    rowStarterCand ∈ filter_by_pitcher_role enginePitcherDemo rowStarterTarget
        [rowRelieverCand, rowStarterCand]
    ∧ rowRelieverCand ∉ filter_by_pitcher_role enginePitcherDemo
        rowStarterTarget [rowRelieverCand, rowStarterCand] := by
  have h := pitcher_role_filter_spec enginePitcherDemo rowStarterTarget
    [rowRelieverCand, rowStarterCand] (by decide) (by decide)
  have h2 := h.2.1 30 30 (by decide) (by norm_num) (by decide) (by norm_num)
  constructor
  · refine (h2 rowStarterCand).mpr ⟨by decide, ⟨?_, ?_⟩, ?_⟩ <;>
      simp [rowStarterCand, Row.get, List.find?, MIN_STARTER_COMP_IP] <;>
      norm_num
  · intro hmem
    rcases (h2 rowRelieverCand).mp hmem with ⟨-, ⟨-, hr⟩, -⟩
    simp [rowRelieverCand, Row.get, List.find?] at hr
    norm_num at hr

/-- C10: when the sanity-check column exists and the located target's value is
non-missing, the outcome-tolerance filter drops every candidate whose own
sanity value is missing (the range test fails on a missing value), so such a
candidate never appears in the output of `find_similar`. -/
theorem sanity_missing_candidates_excluded (e : Engine) (pid season : ℚ)
    (topn : ℕ) (excl : Bool) (t : Row) (ts : ℚ)
    (hc : e.cols.contains e.sanityMetric = true)
    (ht : List.find? (targetMask pid season) e.rows = some t)
    (hts : t.get e.sanityMetric = some ts) :
    (∀ (cands : List Row) (r : Row), r ∈ sanityFilterCands e t cands →
        (r.get e.sanityMetric).isSome = true)
    ∧ ∀ r ∈ find_similar e pid season topn excl,
        (r.get e.sanityMetric).isSome = true := by
  constructor
  · intro cands r hr
    exact sanityFilter_isSome hc hts hr
  · intro r hr
    rcases (find_similar_mem_struct e pid season topn excl t ht r hr).1
      with ⟨l, hl⟩
    exact sanityFilter_isSome hc hts hl

/-- Witness for C10: the demo engine's single surviving candidate, located in
the ranked output, indeed carries a non-missing sanity value. -/
theorem sanity_missing_candidates_excluded_witness :
    (rowCandDemo.get engineDemo.sanityMetric).isSome = true :=
  (sanity_missing_candidates_excluded engineDemo 1 2021 5 true rowTargetDemo
      320 (by decide) (by decide) (by decide)).2 rowCandDemo
    (by rw [engineDemo_find_similar_eval]; exact List.mem_singleton_self _)

/-- C6: both for the season-level engine and the pitch-type engine, the
construction-time availability check fails with an error exactly when the
population table contains none of the configured comparison metrics; with at
least one present the check succeeds, so the condition is settled at
construction and never deferred to query time. -/
theorem construction_fails_without_primary_metrics (cols primary : List String) :
    ((∃ msg, prepare_dataset_check cols primary = Except.error msg)
      ↔ ∀ m ∈ primary, cols.contains m = false)
    ∧ ((∃ msg, pitch_engine_init_check cols = Except.error msg)
      ↔ ∀ m ∈ PITCH_COMPARISON_METRICS, cols.contains m = false) := by
  have key : ∀ l : List String, (l.filter (fun m => cols.contains m) = []
      ↔ ∀ m ∈ l, cols.contains m = false) := by
    intro l
    rw [List.filter_eq_nil]
    simp
  constructor
  · constructor
    · rintro ⟨msg, hmsg⟩ m hm
      unfold prepare_dataset_check availablePrimaryMetrics at hmsg
      split at hmsg
      · exact (key primary).mp (by assumption) m hm
      · exact absurd hmsg (by simp)
    · intro h
      refine ⟨"Dataset missing all primary metrics", ?_⟩
      unfold prepare_dataset_check availablePrimaryMetrics
      rw [if_pos ((key primary).mpr h)]
  · constructor
    · rintro ⟨msg, hmsg⟩ m hm
      unfold pitch_engine_init_check pitchAvailableMetrics at hmsg
      split at hmsg
      · exact (key PITCH_COMPARISON_METRICS).mp (by assumption) m hm
      · exact absurd hmsg (by simp)
    · intro h
      refine ⟨"Dataset missing all pitch comparison metrics", ?_⟩
      unfold pitch_engine_init_check pitchAvailableMetrics
      rw [if_pos ((key PITCH_COMPARISON_METRICS).mpr h)]

/-! ### Percentile theorems -/

/-- Flipping a value through the symmetric clamp window `[1, 99]`. -/
lemma clamp_flip (p : ℚ) :
    max 1 (min 99 (100 - p)) = 100 - max 1 (min 99 p) := by
  rcases le_total p 1 with h1 | h1 <;> rcases le_total p 99 with h2 | h2 <;>
    simp only [max_def, min_def] <;> split_ifs <;> linarith

/-- C2 counterexample: in a two-row season with metric values 1 and 2 the
engine assigns the maximum value 2 the percentile 50, not 99 — the strict-rank
share is 1/2 and the clamp to `[1, 99]` does not raise it to 99. -/
theorem percentile_max_counterexample :
    calculate_percentile frameTwo "m" (some 2) 2021 true = 50
    ∧ calculate_percentile frameTwo "m" (some 2) 2021 true ≠ 99 := by
  have hdata : seasonColData frameTwo "m" 2021 = [1, 2] := by decide
  have hcontains : frameTwo.cols.contains "m" = true := by decide
  have heval : calculate_percentile frameTwo "m" (some 2) 2021 true = 50 := by
    simp only [calculate_percentile, hdata, hcontains, if_true]
    norm_num [min_def, max_def]
  exact ⟨heval, by rw [heval]; norm_num⟩

/-- C2 as amended: within a season's non-missing sample, the minimum value is
assigned percentile 1; the maximum value is assigned the clamp of
`(n - multiplicity of the maximum) / n × 100`, which is at most 99 (and
reaches 99 only when at least 99% of the sample lies strictly below it);
flipping the lower-is-better flag maps the assigned percentile `p` to
`100 - p`; and the underlying share is the strict-rank count over the season's
non-missing count, clamped to `[1, 99]`. -/
theorem percentile_amended (ds : Frame) (metric : String) (season : ℚ) :
    (∀ v, ds.cols.contains metric = true →
        v ∈ seasonColData ds metric season →
        (∀ x ∈ seasonColData ds metric season, v ≤ x) →
        calculate_percentile ds metric (some v) season true = 1)
    ∧ (∀ v, ds.cols.contains metric = true →
        v ∈ seasonColData ds metric season →
        (∀ x ∈ seasonColData ds metric season, x ≤ v) →
        calculate_percentile ds metric (some v) season true
          = max 1 (min 99
              ((((seasonColData ds metric season).length : ℚ)
                  - ((seasonColData ds metric season).countP
                      (fun x => decide (x = v)) : ℚ))
                / ((seasonColData ds metric season).length : ℚ) * 100)))
    ∧ (∀ v hib, calculate_percentile ds metric (some v) season hib ≤ 99)
    ∧ (∀ v hib, calculate_percentile ds metric (some v) season (! hib)
        = 100 - calculate_percentile ds metric (some v) season hib) := by
  refine ⟨?_, ?_, ?_, ?_⟩
  · intro v hcont hmem hmin
    have hlen : (seasonColData ds metric season).length ≠ 0 :=
      List.length_pos.mpr (List.ne_nil_of_mem hmem) |>.ne'
    have hcount : (seasonColData ds metric season).countP
        (fun x => decide (x < v)) = 0 := by
      rw [List.countP_eq_zero]
      intro a ha
      simpa using not_lt.mpr (hmin a ha)
    simp only [calculate_percentile, hcont, if_true, hlen, if_false, hcount]
    norm_num [min_def, max_def]
  · intro v hcont hmem hmax
    have hlen : (seasonColData ds metric season).length ≠ 0 :=
      List.length_pos.mpr (List.ne_nil_of_mem hmem) |>.ne'
    have hsplit : (seasonColData ds metric season).length
        = (seasonColData ds metric season).countP (fun x => decide (x < v))
          + (seasonColData ds metric season).countP (fun x => decide (x = v)) := by
      rw [List.length_eq_countP_add_countP (fun x => decide (x < v))]
      congr 1
      apply List.countP_congr
      intro a ha
      have hav := hmax a ha
      by_cases hlt : a < v
      · simp [hlt, ne_of_lt hlt]
      · simp [hlt, le_antisymm hav (not_lt.mp hlt)]
    have hcast : ((seasonColData ds metric season).countP
          (fun x => decide (x < v)) : ℚ)
        = ((seasonColData ds metric season).length : ℚ)
          - ((seasonColData ds metric season).countP
              (fun x => decide (x = v)) : ℚ) := by
      rw [hsplit]
      push_cast
      ring
    simp only [calculate_percentile, hcont, if_true, hlen, if_false, hcast]
  · intro v hib
    simp only [calculate_percentile]
    split
    · split
      · norm_num
      · exact max_le (by norm_num) (le_trans (min_le_left _ _) (le_refl _))
    · norm_num
  · intro v hib
    simp only [calculate_percentile]
    split
    · split
      · cases hib <;> norm_num
      · cases hib
        · simp only [Bool.not_false, if_true]
          rw [if_neg (by simp), clamp_flip]
          ring
        · simp only [Bool.not_true]
          rw [if_pos trivial]
          exact clamp_flip _
    · cases hib <;> norm_num

/-- Witness for the amended C2 on the three-row season 1, 2, 3: the minimum
gets percentile 1, every percentile is at most 99, and flipping the direction
flag sends the middle value's percentile to its complement. -/
theorem percentile_amended_witness :
    calculate_percentile frameThree "m" (some 1) 2021 true = 1
    ∧ calculate_percentile frameThree "m" (some 3) 2021 true ≤ 99
    ∧ calculate_percentile frameThree "m" (some 2) 2021 false
        = 100 - calculate_percentile frameThree "m" (some 2) 2021 true := by
  have h := percentile_amended frameThree "m" 2021
  refine ⟨h.1 1 (by decide) (by decide) (by decide),
    h.2.2.1 3 true, ?_⟩
  simpa using h.2.2.2 2 true

/-! ### Normalizer lemmas -/

/-- Reading back the key just written by `upsert`. -/
lemma alookup_upsert_self {α : Type} (l : List (String × α)) (k : String)
    (v : α) : alookup (upsert l k v) k = some v := by
  induction l with
  | nil => simp [upsert, alookup]
  | cons p rest ih =>
    by_cases h : p.1 == k
    · simp [upsert, alookup, h]
    · simp only [upsert, h, if_false]
      simpa [alookup, h] using ih

/-- `upsert` leaves every other key's binding unchanged. -/
lemma alookup_upsert_ne {α : Type} (l : List (String × α)) (k k' : String)
    (v : α) (h : k ≠ k') : alookup (upsert l k v) k' = alookup l k' := by
  induction l with
  | nil => simp [upsert, alookup, h]
  | cons p rest ih =>
    by_cases hp : p.1 == k
    · have hp' : p.1 = k := by simpa using hp
      simp [upsert, alookup, hp, hp', h]
    · simp only [upsert, hp, if_false]
      by_cases hp2 : p.1 == k'
      · simp [alookup, hp2]
      · simpa [alookup, hp2] using ih

/-- What each dictionary of the `fit` fold holds for a given column, starting
from an arbitrary state: the column's statistics when it was processed and
present, the initial binding otherwise.  (The statistics depend only on the
DataFrame and the column, so later duplicates overwrite with the same
value.) -/
lemma fit_foldl_lookup (df : Frame) (col : String) (columns : List String) :
    ∀ st : NormState,
      alookup (columns.foldl (fitStep df) st).means col
        = (if col ∈ columns ∧ df.cols.contains col = true
           then some (meanOpt (colValues df col)) else alookup st.means col)
      ∧ alookup (columns.foldl (fitStep df) st).stds col
        = (if col ∈ columns ∧ df.cols.contains col = true
           then some (flooredStd (colValues df col)) else alookup st.stds col) := by
  induction columns with
  | nil => intro st; simp
  | cons c rest ih =>
    intro st
    simp only [List.foldl_cons]
    rcases ih (fitStep df st c) with ⟨ihm, ihs⟩
    by_cases hcol : col ∈ rest ∧ df.cols.contains col = true
    · rw [ihm, if_pos hcol, ihs, if_pos hcol]
      constructor <;>
        rw [if_pos (⟨List.mem_cons_of_mem c hcol.1, hcol.2⟩)]
    · rw [ihm, if_neg hcol, ihs, if_neg hcol]
      by_cases hc : c = col
      · subst hc
        by_cases hcont : df.cols.contains c = true
        · unfold fitStep
          rw [if_pos hcont]
          constructor
          · rw [alookup_upsert_self,
              if_pos ⟨List.mem_cons_self c rest, hcont⟩]
          · rw [alookup_upsert_self,
              if_pos ⟨List.mem_cons_self c rest, hcont⟩]
        · unfold fitStep
          rw [if_neg hcont]
          constructor <;> rw [if_neg (fun h => hcont h.2)]
      · have hcond : ¬(col ∈ c :: rest ∧ df.cols.contains col = true) := by
          intro h
          rcases List.mem_cons.mp h.1 with h1 | h1
          · exact hc h1.symm
          · exact hcol ⟨h1, h.2⟩
        have hstep : alookup (fitStep df st c).means col = alookup st.means col
            ∧ alookup (fitStep df st c).stds col = alookup st.stds col := by
          unfold fitStep
          split
          · exact ⟨alookup_upsert_ne _ _ _ _ hc, alookup_upsert_ne _ _ _ _ hc⟩
          · exact ⟨rfl, rfl⟩
        rw [hstep.1, hstep.2, if_neg hcond, if_neg hcond]
        exact ⟨rfl, rfl⟩

/-- The fitted mean binding of a column. -/
lemma fit_means_lookup (df : Frame) (columns : List String) (col : String) :
    alookup (fit df columns).means col
      = if col ∈ columns ∧ df.cols.contains col = true
        then some (meanOpt (colValues df col)) else none := by
  have h := (fit_foldl_lookup df col columns ⟨[], []⟩).1
  unfold fit
  by_cases hc : col ∈ columns ∧ df.cols.contains col = true
  · rw [h, if_pos hc, if_pos hc]
  · rw [h, if_neg hc, if_neg hc]
    simp [alookup]

/-- The fitted standard-deviation binding of a column. -/
lemma fit_stds_lookup (df : Frame) (columns : List String) (col : String) :
    alookup (fit df columns).stds col
      = if col ∈ columns ∧ df.cols.contains col = true
        then some (flooredStd (colValues df col)) else none := by
  have h := (fit_foldl_lookup df col columns ⟨[], []⟩).2
  unfold fit
  by_cases hc : col ∈ columns ∧ df.cols.contains col = true
  · rw [h, if_pos hc, if_pos hc]
  · rw [h, if_neg hc, if_neg hc]
    simp [alookup]

/-- Membership among a dictionary's keys is exactly having a binding. -/
lemma mem_map_fst_iff {α : Type} (l : List (String × α)) (col : String) :
    col ∈ l.map (fun p => p.1) ↔ (alookup l col).isSome = true := by
  induction l with
  | nil => simp [alookup]
  | cons p rest ih =>
    by_cases h : p.1 == col
    · have h' : p.1 = col := by simpa using h
      simp [alookup, h, h']
    · have h' : ¬ p.1 = col := by simpa using h
      simp only [List.map_cons, List.mem_cons]
      rw [show (alookup (p :: rest) col) = alookup rest col from by
        simp [alookup, h]]
      rw [← ih]
      constructor
      · rintro (hc | hc)
        · exact absurd hc.symm h'
        · exact hc
      · intro hc
        exact Or.inr hc

/-- Membership in `fitted_columns` is exactly having a means binding. -/
lemma mem_fitted_columns_iff (st : NormState) (col : String) :
    col ∈ fitted_columns st ↔ (alookup st.means col).isSome = true :=
  mem_map_fst_iff st.means col

/-- C3 counterexample: `frameAllMissing`'s column `m` is present with zero
non-missing values; after `fit` it IS listed among the fitted columns, with a
stored missing (`NaN`) mean — the claimed "silently skipped, absent from the
fitted output" fails on the code. -/
theorem allmissing_metric_not_skipped_counterexample :
    "m" ∈ fitted_columns (fit frameAllMissing ["m"])
    ∧ alookup (fit frameAllMissing ["m"]).means "m" = some none := by
  have hm := fit_means_lookup frameAllMissing ["m"] "m"
  rw [if_pos ⟨List.mem_singleton_self _, by decide⟩] at hm
  rw [show colValues frameAllMissing "m" = [] from by decide] at hm
  refine ⟨?_, by rw [hm]; rfl⟩
  rw [mem_fitted_columns_iff, hm]
  rfl

/-- C3 as amended: only a metric whose column is absent from the table is
skipped by `fit` (no stored statistics, not listed).  A present column with
zero non-missing values is fitted with missing (`NaN`) mean and standard
deviation, is listed among the fitted columns, and `transform` creates its
z-score column with every produced value missing. -/
theorem allmissing_metric_fitted_with_nan (df : Frame) (columns : List String)
    (col : String) :
    (df.cols.contains col = false →
        col ∉ fitted_columns (fit df columns)
        ∧ alookup (fit df columns).means col = none
        ∧ alookup (fit df columns).stds col = none)
    ∧ (col ∈ columns → df.cols.contains col = true → colValues df col = [] →
        col ∈ fitted_columns (fit df columns)
        ∧ alookup (fit df columns).means col = some none
        ∧ alookup (fit df columns).stds col = some none
        ∧ (col ++ "_z")
            ∈ transformZColumnNames (fit df columns) df.cols (some columns)
        ∧ ∀ r, zScoreValue (fit df columns) r col = none) := by
  constructor
  · intro hcont
    have hm := fit_means_lookup df columns col
    have hs := fit_stds_lookup df columns col
    rw [if_neg (fun h => by rw [hcont] at h; exact absurd h.2 (by simp))] at hm
    rw [if_neg (fun h => by rw [hcont] at h; exact absurd h.2 (by simp))] at hs
    refine ⟨?_, hm, hs⟩
    rw [mem_fitted_columns_iff, hm]
    simp
  · intro hmem hcont hempty
    have hm := fit_means_lookup df columns col
    have hs := fit_stds_lookup df columns col
    rw [if_pos ⟨hmem, hcont⟩, hempty] at hm hs
    have hmean : meanOpt ([] : List ℚ) = none := rfl
    have hstd : flooredStd ([] : List ℚ) = none := rfl
    rw [hmean] at hm
    rw [hstd] at hs
    refine ⟨?_, hm, hs, ?_, ?_⟩
    · rw [mem_fitted_columns_iff, hm]
      rfl
    · simp only [transformZColumnNames, transformCols]
      rw [if_neg (List.ne_nil_of_mem hmem)]
      refine List.mem_map.mpr ⟨col, ?_, rfl⟩
      rw [List.mem_filter]
      refine ⟨hmem, ?_⟩
      rw [hcont, hm]
      rfl
    · intro r
      unfold zScoreValue
      rw [hm, hs]
      rcases hget : r.get col with _ | x <;> simp

/-- Witness for the amended C3 at the concrete all-missing frame. -/
theorem allmissing_metric_fitted_with_nan_witness :
    "m" ∈ fitted_columns (fit frameAllMissing ["m"])
    ∧ alookup (fit frameAllMissing ["m"]).means "m" = some none
    ∧ alookup (fit frameAllMissing ["m"]).stds "m" = some none
    ∧ ("m" ++ "_z") ∈ transformZColumnNames (fit frameAllMissing ["m"])
        frameAllMissing.cols (some ["m"])
    ∧ ∀ r, zScoreValue (fit frameAllMissing ["m"]) r "m" = none :=
  (allmissing_metric_fitted_with_nan frameAllMissing ["m"] "m").2
    (List.mem_singleton_self _) (by decide) (by decide)

/-- A list of nonnegative rationals summing to zero is all zeros. -/
lemma list_nonneg_sum_zero {l : List ℚ} (hpos : ∀ x ∈ l, 0 ≤ x)
    (h : l.sum = 0) : ∀ x ∈ l, x = 0 := by
  induction l with
  | nil => simp
  | cons a rest ih =>
    have ha : 0 ≤ a := hpos a (List.mem_cons_self _ _)
    have hrest : 0 ≤ rest.sum :=
      List.sum_nonneg (fun x hx => hpos x (List.mem_cons_of_mem _ hx))
    rw [List.sum_cons] at h
    intro x hx
    rcases List.mem_cons.mp hx with rfl | hx
    · linarith
    · exact ih (fun y hy => hpos y (List.mem_cons_of_mem _ hy))
        (by linarith) x hx

/-- The sample variance, when defined, is nonnegative. -/
lemma sampleVarOpt_nonneg {data : List ℚ} {v : ℚ}
    (h : sampleVarOpt data = some v) : 0 ≤ v := by
  unfold sampleVarOpt at h
  split at h
  · exact absurd h (by simp)
  · rw [Option.some.injEq] at h
    rw [← h]
    apply div_nonneg
    · apply List.sum_nonneg
      intro x hx
      rcases List.mem_map.mp hx with ⟨y, _, rfl⟩
      positivity
    · have h2 : (2 : ℕ) ≤ data.length := by omega
      have h2q : (2 : ℚ) ≤ (data.length : ℚ) := by exact_mod_cast h2
      linarith

/-- A zero sample variance forces every data point to equal the mean. -/
lemma sampleVar_zero_eq_mean {data : List ℚ}
    (h : sampleVarOpt data = some 0) :
    ∀ x ∈ data, x = data.sum / (data.length : ℚ) := by
  unfold sampleVarOpt at h
  split at h
  · exact absurd h (by simp)
  · rw [Option.some.injEq] at h
    have hn1 : (0 : ℚ) < (data.length : ℚ) - 1 := by
      have h2 : (2 : ℕ) ≤ data.length := by omega
      have h2q : (2 : ℚ) ≤ (data.length : ℚ) := by exact_mod_cast h2
      linarith
    have hsum : ((data.map
        (fun x => (x - data.sum / (data.length : ℚ)) ^ 2)).sum) = 0 := by
      rcases div_eq_zero_iff.mp h with h0 | h0
      · exact h0
      · exact absurd h0 (by linarith)
    intro x hx
    have hterm := list_nonneg_sum_zero
      (fun y hy => by
        rcases List.mem_map.mp hy with ⟨z, _, rfl⟩
        positivity)
      hsum _ (List.mem_map.mpr ⟨x, hx, rfl⟩)
    have hx0 : x - data.sum / (data.length : ℚ) = 0 := by
      exact pow_eq_zero_iff (by norm_num) |>.mp hterm
    linarith

/-- A zero `std` means a zero sample variance (the square root of a
nonnegative rational vanishes only at zero). -/
lemma stdOpt_zero {data : List ℚ} (h : stdOpt data = some 0) :
    sampleVarOpt data = some 0 := by
  unfold stdOpt at h
  rcases hv : sampleVarOpt data with _ | v
  · rw [hv] at h
    simp at h
  · rw [hv] at h
    have hsq : Real.sqrt (v : ℝ) = 0 := by simpa using h
    have hnn : 0 ≤ v := sampleVarOpt_nonneg hv
    have hv0 : (v : ℝ) = 0 :=
      (Real.sqrt_eq_zero (by exact_mod_cast hnn)).mp hsq
    congr 1
    exact_mod_cast hv0

/-- The produced z-score cell once all three inputs are present. -/
lemma zScoreValue_eq (st : NormState) (r : Row) (col : String) (x m : ℚ)
    (s : ℝ) (hx : r.get col = some x)
    (hm : alookup st.means col = some (some m))
    (hs : alookup st.stds col = some (some s)) :
    zScoreValue st r col = some (((x - m : ℚ) : ℝ) / s) := by
  unfold zScoreValue
  rw [hx, hm, hs]
  rfl

/-- C8: for a fitted metric whose sample standard deviation over its
non-missing values is zero, the stored standard deviation is floored to `1.0`;
every stored standard deviation is nonzero, so `transform` never divides by
zero; and every z-score the metric produces on the fitting population
equals 0. -/
theorem zero_std_floored_to_one (df : Frame) (columns : List String)
    (col : String) (hmem : col ∈ columns)
    (hcont : df.cols.contains col = true)
    (hstd : stdOpt (colValues df col) = some 0) :
    alookup (fit df columns).stds col = some (some 1)
    ∧ (∀ c s, alookup (fit df columns).stds c = some (some s) → s ≠ 0)
    ∧ ∀ r ∈ df.rows, ∀ x, r.get col = some x →
        zScoreValue (fit df columns) r col = some 0 := by
  have hvar := stdOpt_zero hstd
  have hstdb : alookup (fit df columns).stds col = some (some 1) := by
    rw [fit_stds_lookup, if_pos ⟨hmem, hcont⟩]
    unfold flooredStd
    rw [hstd]
    simp
  refine ⟨hstdb, ?_, ?_⟩
  · intro c s hc
    rw [fit_stds_lookup] at hc
    split at hc
    · rw [Option.some.injEq] at hc
      unfold flooredStd at hc
      rcases hs0 : stdOpt (colValues df c) with _ | s0
      · rw [hs0] at hc
        simp at hc
      · rw [hs0] at hc
        simp only [Option.map_some', Option.some.injEq] at hc
        by_cases hz : s0 = 0
        · rw [if_pos hz] at hc
          rw [← hc]
          norm_num
        · rw [if_neg hz] at hc
          rw [← hc]
          exact hz
    · exact absurd hc (by simp)
  · intro r hr x hx
    have hmean : alookup (fit df columns).means col
        = some (meanOpt (colValues df col)) := by
      rw [fit_means_lookup, if_pos ⟨hmem, hcont⟩]
    have hdata : x ∈ colValues df col :=
      List.mem_filterMap.mpr ⟨r, hr, hx⟩
    have hne : colValues df col ≠ [] := List.ne_nil_of_mem hdata
    have hmval : meanOpt (colValues df col)
        = some ((colValues df col).sum / ((colValues df col).length : ℚ)) := by
      unfold meanOpt
      rw [if_neg (List.length_pos.mpr hne).ne']
    have hxm : x = (colValues df col).sum / ((colValues df col).length : ℚ) :=
      sampleVar_zero_eq_mean hvar x hdata
    rw [zScoreValue_eq (fit df columns) r col x
        ((colValues df col).sum / ((colValues df col).length : ℚ)) 1 hx
        (by rw [hmean, hmval]) hstdb]
    rw [hxm]
    simp

/-- Witness for C8 on the constant two-row frame: the stored standard
deviation is the floored `1.0` and the first row's z-score is 0. -/
theorem zero_std_floored_to_one_witness :
    alookup (fit frameConstant ["m"]).stds "m" = some (some 1)
    ∧ zScoreValue (fit frameConstant ["m"]) ⟨[("m", some 5)]⟩ "m" = some 0 := by
  have hcv : colValues frameConstant "m" = [5, 5] := by decide
  have hstd : stdOpt (colValues frameConstant "m") = some 0 := by
    rw [hcv]
    unfold stdOpt sampleVarOpt
    norm_num [List.map_cons, List.map_nil, List.sum_cons, List.sum_nil,
      Real.sqrt_zero]
  have h := zero_std_floored_to_one frameConstant ["m"] "m"
    (List.mem_singleton_self _) (by decide) hstd
  exact ⟨h.1, h.2.2 ⟨[("m", some 5)]⟩ (by decide) 5 (by decide)⟩

end MLBComp
